import Mathlib

set_option maxRecDepth 16384

/-!
Shallow embedding of the frostyard/pm package-manager abstraction library:
the capability model (`capabilities.go`), the error taxonomy (`errors.go`,
`internal/types`), the command runner wrapper (`internal/runner/exec.go`),
the progress helper (`progress` package and its copy in `internal/types`),
and the result-parsing logic of the snap, brew and flatpak backends.

Go machine-level conventions used throughout:
* Go `string` is modelled as Lean `String` (a list of characters); Go
  `len`/slicing is modelled at character granularity via `String.data`.
* Go `error` values are modelled by the inductive `GoError`; a possibly-nil
  `error` is `Option GoError` (`none` = nil).
* `time.Time` is modelled as `Nat`; the zero time is `0`, and `time.Now()`
  reads a strictly increasing clock that starts at `1`, so every stamped
  time is non-zero.
* `uuid.New().String()` is modelled as an injective supply of non-empty
  identifier strings drawn from a per-process counter.
-/

/-! ## Operations and capabilities (`types.go`, `capabilities.go`) -/

/-- Go: `type Operation string`. -/
abbrev Operation := String

def OperationUpdateMetadata : Operation := "UpdateMetadata"
def OperationUpgradePackages : Operation := "UpgradePackages"
def OperationInstall : Operation := "Install"
def OperationUninstall : Operation := "Uninstall"
def OperationSearch : Operation := "Search"
def OperationListInstalled : Operation := "ListInstalled"
def OperationListAvailable : Operation := "ListAvailable"

/-- Go: `type Capability struct { Operation Operation; Supported bool; Notes string }`. -/
structure Capability where
  Operation : Operation
  Supported : Bool
  Notes : String
deriving DecidableEq

/-- Go: `func Supports(caps []Capability, op Operation) bool` — the loop in
`capabilities.go` returning `true` at the first entry whose operation matches
and is supported. -/
def Supports : List Capability → Operation → Bool
  | [], _ => false
  | c :: rest, op => if c.Operation == op && c.Supported then true else Supports rest op

/-- Go: `func GetCapability(caps []Capability, op Operation) *Capability` —
returns the first matching entry, or nil. -/
def GetCapability : List Capability → Operation → Option Capability
  | [], _ => none
  | c :: rest, op => if c.Operation == op then some c else GetCapability rest op

/-! ## Error taxonomy (`errors.go` / `internal/types`)

Go `error` values form chains through `Unwrap`.  The inductive below covers
exactly the error values this library creates or that the claims mention:
the two sentinels created by `errors.New` (identity-based, so each is a
single distinguished value), the three context structs, a generic unrelated
error, and a `fmt.Errorf("...: %w", err)`-style context wrapper. -/

inductive GoError where
  /-- `var ErrNotSupported = errors.New("operation not supported")` -/
  | errNotSupported : GoError
  /-- `var ErrNotAvailable = errors.New("backend not available")` -/
  | errNotAvailable : GoError
  /-- an unrelated generic error (`errors.New(msg)` elsewhere); distinct
  from both sentinels regardless of its message, as Go compares identity -/
  | generic (msg : String) : GoError
  /-- `NotSupportedError{Operation, Backend, Reason}`; `Unwrap` yields `ErrNotSupported` -/
  | notSupportedError (Operation : Operation) (Backend Reason : String) : GoError
  /-- `NotAvailableError{Backend, Reason}`; `Unwrap` yields `ErrNotAvailable` -/
  | notAvailableError (Backend Reason : String) : GoError
  /-- `ExternalFailureError{Operation, Backend, Stdout, Stderr, Err}`;
  `Unwrap` yields `Err` (the `Payload` map carries no behavior and is elided) -/
  | externalFailure (Operation : Operation) (Backend Stdout Stderr : String)
      (Err : Option GoError) : GoError
  /-- added context around an inner error, `fmt.Errorf("...: %w", inner)` style -/
  | wrapContext (context : String) (inner : GoError) : GoError

/-- Equality of Go error values.  For the sentinel values and `generic`
(identity-based `errors.New` values) structural equality coincides with Go
identity because each such value occurs once in the model; for the pointer
structs the claims only ever compare against sentinels, where both notions
agree (a struct pointer is never `==` a sentinel). -/
def GoError.beq : GoError → GoError → Bool
  | .errNotSupported, .errNotSupported => true
  | .errNotAvailable, .errNotAvailable => true
  | .generic m, .generic m2 => m == m2
  | .notSupportedError o b r, .notSupportedError o2 b2 r2 => o == o2 && b == b2 && r == r2
  | .notAvailableError b r, .notAvailableError b2 r2 => b == b2 && r == r2
  | .externalFailure o b so se none, .externalFailure o2 b2 so2 se2 none =>
      o == o2 && b == b2 && so == so2 && se == se2
  | .externalFailure o b so se (some e), .externalFailure o2 b2 so2 se2 (some e2) =>
      o == o2 && b == b2 && so == so2 && se == se2 && GoError.beq e e2
  | .wrapContext c e, .wrapContext c2 e2 => c == c2 && GoError.beq e e2
  | _, _ => false

instance : BEq GoError := ⟨GoError.beq⟩

/-- Go: `errors.Is(e, target)` — repeatedly compare with `target`, following
`Unwrap`.  The sentinels and `generic` have no `Unwrap` (the chain stops);
`NotSupportedError`/`NotAvailableError` unwrap to their sentinel (which itself
unwraps to nothing, so the recursion there is unfolded into a direct sentinel
comparison); `ExternalFailureError` unwraps to its `Err`; `wrapContext`
unwraps to its inner error. -/
def errorIs : GoError → GoError → Bool
  | .errNotSupported, target => .errNotSupported == target
  | .errNotAvailable, target => .errNotAvailable == target
  | .generic m, target => .generic m == target
  | .notSupportedError o b r, target =>
      .notSupportedError o b r == target || .errNotSupported == target
  | .notAvailableError b r, target =>
      .notAvailableError b r == target || .errNotAvailable == target
  | .externalFailure o b so se none, target =>
      .externalFailure o b so se none == target
  | .externalFailure o b so se (some inner), target =>
      .externalFailure o b so se (some inner) == target || errorIs inner target
  | .wrapContext c inner, target => .wrapContext c inner == target || errorIs inner target

/-- Go: `errors.As(e, &target)` for `target : *ExternalFailureError` — walk the
`Unwrap` chain looking for a value of concrete type `*ExternalFailureError`. -/
def errorAsExternalFailure : GoError → Bool
  | .externalFailure _ _ _ _ _ => true
  | .wrapContext _ inner => errorAsExternalFailure inner
  | _ => false

/-- Go: `func IsNotSupported(err error) bool { return errors.Is(err, ErrNotSupported) }`
(`errors.Is` on a nil error returns false). -/
def IsNotSupported : Option GoError → Bool
  | none => false
  | some e => errorIs e .errNotSupported

/-- Go: `func IsNotAvailable(err error) bool { return errors.Is(err, ErrNotAvailable) }`. -/
def IsNotAvailable : Option GoError → Bool
  | none => false
  | some e => errorIs e .errNotAvailable

/-- Go: `func IsExternalFailure(err error) bool` — `errors.As` against
`*ExternalFailureError` (false on nil). -/
def IsExternalFailure : Option GoError → Bool
  | none => false
  | some e => errorAsExternalFailure e

/-! ## Command runner (`internal/runner/exec.go`) -/

/-- The outcome of `runner.Run(ctx, name, args...)`: captured stdout, stderr
and the possibly-nil error.  The `Runner` interface is abstracted to this
result value. -/
structure RunOutput where
  stdout : String
  stderr : String
  err : Option GoError

/-- Go: `func sanitize(s string) string` — `const maxLen = 500;
if len(s) > maxLen { return s[:maxLen] + "... (truncated)" }; return s`. -/
def sanitize (s : String) : String :=
  if s.length > 500 then String.mk (s.data.take 500) ++ "... (truncated)" else s

/-- Go: `func RunWithExternalError(ctx, runner, operation, backend, name, args...)`
— run the command, and on failure wrap the error in an `ExternalFailureError`
carrying the sanitized output. -/
def RunWithExternalError (operation : Operation) (backend : String) (r : RunOutput) :
    String × String × Option GoError :=
  match r.err with
  | some e =>
      (r.stdout, r.stderr,
        some (.externalFailure operation backend (sanitize r.stdout) (sanitize r.stderr) (some e)))
  | none => (r.stdout, r.stderr, none)

/-! ## Go `strings` helpers used by the backends -/

/-- Go: `strings.Split(s, sep)` for a single-character separator (the
library only splits on `"\n"` and `"\t"`): the substrings between
occurrences of `sep`, so that splitting the empty string gives `[""]` and
separators at the ends contribute empty substrings. -/
def goSplit (s : String) (sep : Char) : List String :=
  (s.data.splitOnP (fun c => c == sep)).map String.mk

/-- Tests whether `sub` occurs as a contiguous infix of the character list. -/
def goContainsList (sub : List Char) : List Char → Bool
  | [] => sub.isEmpty
  | c :: t => sub.isPrefixOf (c :: t) || goContainsList sub t

/-- Go: `strings.Contains(s, substr)`. -/
def goContains (s substr : String) : Bool :=
  goContainsList substr.data s.data

/-- Go: `strings.HasPrefix(s, prefix)`. -/
def goHasPrefix (s pre : String) : Bool :=
  pre.data.isPrefixOf s.data

/-- Go: `strings.Fields(s)` — substrings separated by runs of whitespace. -/
def goFields (s : String) : List String :=
  ((s.data.splitOnP (fun c => c.isWhitespace)).filter (fun l => !l.isEmpty)).map String.mk

/-- Go: `strings.TrimSpace(s)`. -/
def goTrimSpace (s : String) : String :=
  String.mk (((s.data.dropWhile Char.isWhitespace).reverse.dropWhile Char.isWhitespace).reverse)

example : goFields "  ==> Upgrading   wget  " = ["==>", "Upgrading", "wget"] := by decide
example : goTrimSpace "  a b " = "a b" := by decide
example : goContains "abcd" "bc" = true := by decide

/-! ## Progress model (`progress` package data types) -/

/-- Go: `type Severity string`. -/
abbrev Severity := String

def SeverityInfo : Severity := "Informational"
def SeverityWarning : Severity := "Warning"
def SeverityError : Severity := "Error"

/-- Go: `ProgressMessage` — severity, text, timestamp and the optional
correlation identifiers (empty string when nothing is open). -/
structure ProgressMessage where
  Severity : Severity
  Text : String
  Timestamp : Nat
  ActionID : String
  TaskID : String
  StepID : String
deriving DecidableEq

/-- Go: `ProgressAction` — `EndedAt = 0` models the zero `time.Time`. -/
structure ProgressAction where
  ID : String
  Name : String
  StartedAt : Nat
  EndedAt : Nat
deriving DecidableEq

/-- Go: `ProgressTask`. -/
structure ProgressTask where
  ID : String
  ActionID : String
  Name : String
  StartedAt : Nat
  EndedAt : Nat
deriving DecidableEq

/-- Go: `ProgressStep`. -/
structure ProgressStep where
  ID : String
  TaskID : String
  Name : String
  StartedAt : Nat
  EndedAt : Nat
deriving DecidableEq

/-- One call received by a `ProgressReporter` (its four methods). -/
inductive Event where
  | onAction (a : ProgressAction)
  | onTask (t : ProgressTask)
  | onStep (s : ProgressStep)
  | onMessage (m : ProgressMessage)
deriving DecidableEq

/-- Model of `uuid.New().String()`: the `n`-th identifier drawn from the
process-wide supply.  Any injective supply of non-empty strings is a
faithful abstraction of collision-free UUID generation. -/
def freshID (n : Nat) : String :=
  String.mk (List.replicate (n + 1) 'u')

/-- State of one `ProgressHelper` together with the ambient world it
interacts with.  `reporter`, `currentAction`, `currentTask`, `currentStep`
are the Go struct's fields (a reporter is identified by a name token;
`none` is a nil reporter).  `nextID` models the UUID supply, `now` the
monotone clock (starting at 1 so stamped times are non-zero), and `events`
the sequence of calls the reporter has received so far, oldest first. -/
structure Helper where
  reporter : Option String
  currentAction : Option ProgressAction
  currentTask : Option ProgressTask
  currentStep : Option ProgressStep
  nextID : Nat
  now : Nat
  events : List Event
deriving DecidableEq

/-- Go: `func NewProgressHelper(defaultReporter, overrideReporter ProgressReporter)`
— `reporter := overrideReporter; if reporter == nil { reporter = defaultReporter }`. -/
def NewProgressHelper (defaultReporter overrideReporter : Option String) : Helper :=
  { reporter :=
      match overrideReporter with
      | some r => some r
      | none => defaultReporter
    currentAction := none
    currentTask := none
    currentStep := none
    nextID := 0
    now := 1
    events := [] }

/-- The `ActionID` the Go helper attaches: `h.currentAction.ID` if an action
is open, else the empty string. -/
def Helper.currentActionID (h : Helper) : String :=
  match h.currentAction with
  | some a => a.ID
  | none => ""

/-- The `TaskID` attached when a task is open, else empty. -/
def Helper.currentTaskID (h : Helper) : String :=
  match h.currentTask with
  | some t => t.ID
  | none => ""

/-- The `StepID` attached when a step is open, else empty. -/
def Helper.currentStepID (h : Helper) : String :=
  match h.currentStep with
  | some s => s.ID
  | none => ""

/-! ## Progress helper, `progress` package version (`src/unnamed/part_013`) -/

namespace Progress

/-- Go: `func (h *ProgressHelper) BeginAction(name string) string`. -/
def BeginAction (h : Helper) (name : String) : String × Helper :=
  match h.reporter with
  | none => ("", h)
  | some _ =>
    let action : ProgressAction :=
      { ID := freshID h.nextID, Name := name, StartedAt := h.now, EndedAt := 0 }
    (action.ID,
      { h with
          nextID := h.nextID + 1
          now := h.now + 1
          currentAction := some action
          events := h.events ++ [.onAction action] })

/-- Go: `func (h *ProgressHelper) EndAction()` — stamps `EndedAt`, re-emits
the action, then clears the current action, task AND step. -/
def EndAction (h : Helper) : Helper :=
  match h.reporter, h.currentAction with
  | some _, some a =>
    let ended : ProgressAction := { a with EndedAt := h.now }
    { h with
        now := h.now + 1
        events := h.events ++ [.onAction ended]
        currentAction := none
        currentTask := none
        currentStep := none }
  | _, _ => h

/-- Go: `func (h *ProgressHelper) BeginTask(name string) string` — the
task's `ActionID` is the current action's ID, or empty. -/
def BeginTask (h : Helper) (name : String) : String × Helper :=
  match h.reporter with
  | none => ("", h)
  | some _ =>
    let actionID := h.currentActionID
    let task : ProgressTask :=
      { ID := freshID h.nextID, ActionID := actionID, Name := name
        StartedAt := h.now, EndedAt := 0 }
    (task.ID,
      { h with
          nextID := h.nextID + 1
          now := h.now + 1
          currentTask := some task
          events := h.events ++ [.onTask task] })

/-- Go: `func (h *ProgressHelper) EndTask()` — stamps, re-emits, clears the
current task AND step. -/
def EndTask (h : Helper) : Helper :=
  match h.reporter, h.currentTask with
  | some _, some t =>
    let ended : ProgressTask := { t with EndedAt := h.now }
    { h with
        now := h.now + 1
        events := h.events ++ [.onTask ended]
        currentTask := none
        currentStep := none }
  | _, _ => h

/-- Go: `func (h *ProgressHelper) BeginStep(name string) string`. -/
def BeginStep (h : Helper) (name : String) : String × Helper :=
  match h.reporter with
  | none => ("", h)
  | some _ =>
    let taskID := h.currentTaskID
    let step : ProgressStep :=
      { ID := freshID h.nextID, TaskID := taskID, Name := name
        StartedAt := h.now, EndedAt := 0 }
    (step.ID,
      { h with
          nextID := h.nextID + 1
          now := h.now + 1
          currentStep := some step
          events := h.events ++ [.onStep step] })

/-- Go: `func (h *ProgressHelper) EndStep()` — stamps, re-emits, clears the
current step only. -/
def EndStep (h : Helper) : Helper :=
  match h.reporter, h.currentStep with
  | some _, some s =>
    let ended : ProgressStep := { s with EndedAt := h.now }
    { h with
        now := h.now + 1
        events := h.events ++ [.onStep ended]
        currentStep := none }
  | _, _ => h

/-- Go: `func (h *ProgressHelper) message(severity Severity, text string)`. -/
def message (h : Helper) (severity : Severity) (text : String) : Helper :=
  match h.reporter with
  | none => h
  | some _ =>
    let msg : ProgressMessage :=
      { Severity := severity, Text := text, Timestamp := h.now
        ActionID := h.currentActionID
        TaskID := h.currentTaskID
        StepID := h.currentStepID }
    { h with
        now := h.now + 1
        events := h.events ++ [.onMessage msg] }

/-- Go: `func (h *ProgressHelper) Info(text string)`. -/
def Info (h : Helper) (text : String) : Helper :=
  message h SeverityInfo text

/-- Go: `func (h *ProgressHelper) Warning(text string)`. -/
def Warning (h : Helper) (text : String) : Helper :=
  message h SeverityWarning text

/-- Go: `func (h *ProgressHelper) Error(text string)`. -/
def Error (h : Helper) (text : String) : Helper :=
  message h SeverityError text

end Progress

/-- One call a backend can make on a helper; names the nine public methods. -/
inductive Op where
  | beginAction (name : String)
  | endAction
  | beginTask (name : String)
  | endTask
  | beginStep (name : String)
  | endStep
  | info (text : String)
  | warning (text : String)
  | errorMsg (text : String)
deriving DecidableEq

namespace Progress

/-- Execute one call on the `progress`-package helper, discarding the
returned identifier. -/
def step (h : Helper) : Op → Helper
  | .beginAction n => (BeginAction h n).2
  | .endAction => EndAction h
  | .beginTask n => (BeginTask h n).2
  | .endTask => EndTask h
  | .beginStep n => (BeginStep h n).2
  | .endStep => EndStep h
  | .info t => Info h t
  | .warning t => Warning h t
  | .errorMsg t => Error h t

/-- Execute a sequence of calls. -/
def run (h : Helper) : List Op → Helper
  | [] => h
  | op :: rest => run (step h op) rest

/-- The identifiers returned by the `Begin*` calls of a sequence, in call
order. -/
def runIDs (h : Helper) : List Op → List String
  | [] => []
  | op :: rest =>
    (match op with
     | .beginAction n => [(BeginAction h n).1]
     | .beginTask n => [(BeginTask h n).1]
     | .beginStep n => [(BeginStep h n).1]
     | _ => []) ++ runIDs (step h op) rest

end Progress

/-! ## Progress helper, `internal/types` copy (`src/internal/types/progress_helpers.go`)

Same construction and `Begin*`/`message` behavior, but `EndAction` clears
only `currentAction` and `EndTask` clears only `currentTask` (no cascading
clear of still-open children). -/

namespace TypesPkg

/-- Go (`internal/types`): `BeginAction`. -/
def BeginAction (h : Helper) (name : String) : String × Helper :=
  match h.reporter with
  | none => ("", h)
  | some _ =>
    let action : ProgressAction :=
      { ID := freshID h.nextID, Name := name, StartedAt := h.now, EndedAt := 0 }
    (action.ID,
      { h with
          nextID := h.nextID + 1
          now := h.now + 1
          currentAction := some action
          events := h.events ++ [.onAction action] })

/-- Go (`internal/types`): `EndAction` — copies the action, stamps `EndedAt`,
emits it, and clears `currentAction` only. -/
def EndAction (h : Helper) : Helper :=
  match h.reporter, h.currentAction with
  | some _, some a =>
    let action : ProgressAction := { a with EndedAt := h.now }
    { h with
        now := h.now + 1
        events := h.events ++ [.onAction action]
        currentAction := none }
  | _, _ => h

/-- Go (`internal/types`): `BeginTask` — builds the task with zero-value
`ActionID` and then sets it from the current action if one is open. -/
def BeginTask (h : Helper) (name : String) : String × Helper :=
  match h.reporter with
  | none => ("", h)
  | some _ =>
    let task0 : ProgressTask :=
      { ID := freshID h.nextID, ActionID := "", Name := name
        StartedAt := h.now, EndedAt := 0 }
    let task : ProgressTask :=
      match h.currentAction with
      | some a => { task0 with ActionID := a.ID }
      | none => task0
    (task.ID,
      { h with
          nextID := h.nextID + 1
          now := h.now + 1
          currentTask := some task
          events := h.events ++ [.onTask task] })

/-- Go (`internal/types`): `EndTask` — clears `currentTask` only (the open
step, if any, is left in place). -/
def EndTask (h : Helper) : Helper :=
  match h.reporter, h.currentTask with
  | some _, some t =>
    let task : ProgressTask := { t with EndedAt := h.now }
    { h with
        now := h.now + 1
        events := h.events ++ [.onTask task]
        currentTask := none }
  | _, _ => h

/-- Go (`internal/types`): `BeginStep`. -/
def BeginStep (h : Helper) (name : String) : String × Helper :=
  match h.reporter with
  | none => ("", h)
  | some _ =>
    let step0 : ProgressStep :=
      { ID := freshID h.nextID, TaskID := "", Name := name
        StartedAt := h.now, EndedAt := 0 }
    let step : ProgressStep :=
      match h.currentTask with
      | some t => { step0 with TaskID := t.ID }
      | none => step0
    (step.ID,
      { h with
          nextID := h.nextID + 1
          now := h.now + 1
          currentStep := some step
          events := h.events ++ [.onStep step] })

/-- Go (`internal/types`): `EndStep`. -/
def EndStep (h : Helper) : Helper :=
  match h.reporter, h.currentStep with
  | some _, some s =>
    let step : ProgressStep := { s with EndedAt := h.now }
    { h with
        now := h.now + 1
        events := h.events ++ [.onStep step]
        currentStep := none }
  | _, _ => h

/-- Go (`internal/types`): `message`. -/
def message (h : Helper) (severity : Severity) (text : String) : Helper :=
  match h.reporter with
  | none => h
  | some _ =>
    let msg : ProgressMessage :=
      { Severity := severity, Text := text, Timestamp := h.now
        ActionID := h.currentActionID
        TaskID := h.currentTaskID
        StepID := h.currentStepID }
    { h with
        now := h.now + 1
        events := h.events ++ [.onMessage msg] }

/-- Go (`internal/types`): `Info`. -/
def Info (h : Helper) (text : String) : Helper :=
  message h SeverityInfo text

/-- Go (`internal/types`): `Warning`. -/
def Warning (h : Helper) (text : String) : Helper :=
  message h SeverityWarning text

/-- Go (`internal/types`): `Error`. -/
def Error (h : Helper) (text : String) : Helper :=
  message h SeverityError text

/-- Execute one call on the `internal/types` helper. -/
def step (h : Helper) : Op → Helper
  | .beginAction n => (BeginAction h n).2
  | .endAction => EndAction h
  | .beginTask n => (BeginTask h n).2
  | .endTask => EndTask h
  | .beginStep n => (BeginStep h n).2
  | .endStep => EndStep h
  | .info t => Info h t
  | .warning t => Warning h t
  | .errorMsg t => Error h t

/-- Execute a sequence of calls on the `internal/types` helper. -/
def run (h : Helper) : List Op → Helper
  | [] => h
  | op :: rest => run (step h op) rest

end TypesPkg

/-- A call sequence is properly nested from `h` when `endTask` is never
called with a step still open and `endAction` is never called with a task
or step still open (children are closed before their parent), judged along
the `progress`-package execution. -/
def properlyNested (h : Helper) : List Op → Bool
  | [] => true
  | op :: rest =>
    (match op with
     | .endAction => h.currentTask.isNone && h.currentStep.isNone
     | .endTask => h.currentStep.isNone
     | _ => true) && properlyNested (Progress.step h op) rest

/-! ## Result types (`internal/types`, mirrored by the `pm` package) -/

/-- Go: `PackageRef{Name, Namespace, Channel, Kind}` (unset fields are the
empty string). -/
structure PackageRef where
  Name : String
  Namespace : String
  Channel : String
  Kind : String
deriving DecidableEq

/-- Go: `InstalledPackage{Ref, Version, Status}`. -/
structure InstalledPackage where
  Ref : PackageRef
  Version : String
  Status : String
deriving DecidableEq

/-- Go: `UpdateResult{Changed, Messages}` — by design there is no
changed-package list field. -/
structure UpdateResult where
  Changed : Bool
  Messages : List ProgressMessage
deriving DecidableEq

/-- Go: `UpgradeResult{Changed, PackagesChanged, Messages}`. -/
structure UpgradeResult where
  Changed : Bool
  PackagesChanged : List PackageRef
  Messages : List ProgressMessage
deriving DecidableEq

/-- Go: `InstallResult{Changed, PackagesInstalled, Messages}`. -/
structure InstallResult where
  Changed : Bool
  PackagesInstalled : List PackageRef
  Messages : List ProgressMessage
deriving DecidableEq

/-- Go: `UninstallResult{Changed, PackagesUninstalled, Messages}`. -/
structure UninstallResult where
  Changed : Bool
  PackagesUninstalled : List PackageRef
  Messages : List ProgressMessage
deriving DecidableEq

/-! ## Snap backend (`internal/backend/snap/snap.go`)

Each operation is embedded as a function of the backend's `runner != nil`
flag and the `RunOutput` the runner would produce; progress emission does
not influence any returned value and is treated separately by the helper
theorems. -/

/-- Go: snap `Capabilities` — every operation is supported exactly when a
runner is configured. -/
def snapCapabilities (hasRunner : Bool) : List Capability :=
  [ { Operation := OperationSearch, Supported := hasRunner, Notes := "via snap find CLI" },
    { Operation := OperationUpdateMetadata, Supported := hasRunner, Notes := "via snap refresh CLI" },
    { Operation := OperationUpgradePackages, Supported := hasRunner, Notes := "via snap refresh CLI" },
    { Operation := OperationInstall, Supported := hasRunner, Notes := "via snap install CLI" },
    { Operation := OperationUninstall, Supported := hasRunner, Notes := "via snap remove CLI" },
    { Operation := OperationListInstalled, Supported := hasRunner, Notes := "via snap list CLI" } ]

/-- Go: snap `Update` — `snap refresh --list`; changed when the trimmed
output is non-empty and does not say all snaps are up to date. -/
def snapUpdate (hasRunner : Bool) (r : RunOutput) : UpdateResult × Option GoError :=
  if !hasRunner then ({ Changed := false, Messages := [] }, some .errNotSupported)
  else
    match RunWithExternalError OperationUpdateMetadata "snap" r with
    | (_, _, some e) => ({ Changed := false, Messages := [] }, some e)
    | (stdout, _, none) =>
      let changed := !(goTrimSpace stdout).isEmpty && !(goContains stdout "All snaps up to date")
      ({ Changed := changed, Messages := [] }, none)

/-- Go: snap `Upgrade` — `snap refresh`; a trimmed line containing
"refreshed" or "installed" marks the result changed and contributes its
first field as a package name; a closing "All snaps up to date" anywhere in
the output forces `Changed` back to false. -/
def snapUpgrade (hasRunner : Bool) (r : RunOutput) : UpgradeResult × Option GoError :=
  if !hasRunner then
    ({ Changed := false, PackagesChanged := [], Messages := [] }, some .errNotSupported)
  else
    match RunWithExternalError OperationUpgradePackages "snap" r with
    | (_, _, some e) => ({ Changed := false, PackagesChanged := [], Messages := [] }, some e)
    | (stdout, _, none) =>
      let parsed := (goSplit stdout '\n').foldl
        (fun (acc : List PackageRef × Bool) rawLine =>
          let line := goTrimSpace rawLine
          if goContains line "refreshed" || goContains line "installed" then
            let fields := goFields line
            let pkgs :=
              if fields.length ≥ 1 then
                acc.1 ++ [{ Name := fields.getD 0 "", Namespace := "", Channel := ""
                            Kind := "snap" }]
              else acc.1
            (pkgs, true)
          else acc)
        ([], false)
      let changed := if goContains stdout "All snaps up to date" then false else parsed.2
      ({ Changed := changed, PackagesChanged := parsed.1, Messages := [] }, none)

/-- Go: snap `Install` — `snap install`; lines containing "installed" mark
the result changed and claim the first requested package they mention; if
nothing was parsed but the command succeeded with a change, all requested
packages are reported. -/
def snapInstall (hasRunner : Bool) (pkgs : List PackageRef) (r : RunOutput) :
    InstallResult × Option GoError :=
  if !hasRunner then
    ({ Changed := false, PackagesInstalled := [], Messages := [] }, some .errNotSupported)
  else if pkgs.isEmpty then
    ({ Changed := false, PackagesInstalled := [], Messages := [] }, none)
  else
    match RunWithExternalError OperationInstall "snap" r with
    | (_, _, some e) => ({ Changed := false, PackagesInstalled := [], Messages := [] }, some e)
    | (stdout, _, none) =>
      let parsed := (goSplit stdout '\n').foldl
        (fun (acc : List PackageRef × Bool) rawLine =>
          let line := goTrimSpace rawLine
          if goContains line "installed" then
            let claimed :=
              match pkgs.find? (fun pkg => goContains line pkg.Name) with
              | some pkg => acc.1 ++ [pkg]
              | none => acc.1
            (claimed, true)
          else acc)
        ([], false)
      let installed := if parsed.2 && parsed.1.isEmpty then pkgs else parsed.1
      ({ Changed := parsed.2, PackagesInstalled := installed, Messages := [] }, none)

/-- Go: snap `Uninstall` — `snap remove`; same shape as `Install` keyed on
"removed". -/
def snapUninstall (hasRunner : Bool) (pkgs : List PackageRef) (r : RunOutput) :
    UninstallResult × Option GoError :=
  if !hasRunner then
    ({ Changed := false, PackagesUninstalled := [], Messages := [] }, some .errNotSupported)
  else if pkgs.isEmpty then
    ({ Changed := false, PackagesUninstalled := [], Messages := [] }, none)
  else
    match RunWithExternalError OperationUninstall "snap" r with
    | (_, _, some e) => ({ Changed := false, PackagesUninstalled := [], Messages := [] }, some e)
    | (stdout, _, none) =>
      let parsed := (goSplit stdout '\n').foldl
        (fun (acc : List PackageRef × Bool) rawLine =>
          let line := goTrimSpace rawLine
          if goContains line "removed" then
            let claimed :=
              match pkgs.find? (fun pkg => goContains line pkg.Name) with
              | some pkg => acc.1 ++ [pkg]
              | none => acc.1
            (claimed, true)
          else acc)
        ([], false)
      let uninstalled := if parsed.2 && parsed.1.isEmpty then pkgs else parsed.1
      ({ Changed := parsed.2, PackagesUninstalled := uninstalled, Messages := [] }, none)

/-- Go: snap `Search` — `snap find`; skips the header line, then takes the
first field of each non-empty trimmed line. -/
def snapSearch (hasRunner : Bool) (query : String) (r : RunOutput) :
    List PackageRef × Option GoError :=
  if !hasRunner then ([], some .errNotSupported)
  else if query == "" then ([], none)
  else
    match RunWithExternalError OperationSearch "snap" r with
    | (_, _, some e) => ([], some e)
    | (stdout, _, none) =>
      let results := (goSplit stdout '\n').enum.foldl
        (fun (acc : List PackageRef) (iline : Nat × String) =>
          if iline.1 == 0 then acc
          else
            let line := goTrimSpace iline.2
            if line == "" then acc
            else
              let fields := goFields line
              if fields.length ≥ 1 then
                acc ++ [{ Name := fields.getD 0 "", Namespace := "", Channel := ""
                          Kind := "snap" }]
              else acc)
        []
      (results, none)

/-- Go: snap `ListInstalled` — `snap list`; skips the header, reads name and
version from lines with at least two fields. -/
def snapListInstalled (hasRunner : Bool) (r : RunOutput) :
    List InstalledPackage × Option GoError :=
  if !hasRunner then ([], some .errNotSupported)
  else
    match RunWithExternalError OperationListInstalled "snap" r with
    | (_, _, some e) => ([], some e)
    | (stdout, _, none) =>
      let packages := (goSplit stdout '\n').enum.foldl
        (fun (acc : List InstalledPackage) (iline : Nat × String) =>
          if iline.1 == 0 then acc
          else
            let line := goTrimSpace iline.2
            if line == "" then acc
            else
              let fields := goFields line
              if fields.length ≥ 2 then
                acc ++ [{ Ref := { Name := fields.getD 0 "", Namespace := ""
                                   Channel := "", Kind := "snap" }
                          Version := fields.getD 1 "", Status := "" }]
              else acc)
        []
      (packages, none)

/-! ## Brew backend (`internal/backend/brew/brew.go`) -/

/-- Go: brew `Capabilities` — `Search` is always supported (Formulae API);
the CLI-backed operations require a runner. -/
def brewCapabilities (hasRunner : Bool) : List Capability :=
  [ { Operation := OperationSearch, Supported := true, Notes := "via Formulae API" },
    { Operation := OperationUpdateMetadata, Supported := hasRunner, Notes := "via brew update CLI" },
    { Operation := OperationUpgradePackages, Supported := hasRunner, Notes := "via brew upgrade CLI" },
    { Operation := OperationInstall, Supported := hasRunner, Notes := "via brew install CLI" },
    { Operation := OperationUninstall, Supported := hasRunner, Notes := "via brew uninstall CLI" },
    { Operation := OperationListInstalled, Supported := hasRunner, Notes := "via brew list CLI" } ]

/-- Go: brew `Update` — `brew update`; changed when the output mentions
"Updated" or "Homebrew updated". -/
def brewUpdate (hasRunner : Bool) (r : RunOutput) : UpdateResult × Option GoError :=
  if !hasRunner then ({ Changed := false, Messages := [] }, some .errNotSupported)
  else
    match RunWithExternalError OperationUpdateMetadata "brew" r with
    | (_, _, some e) => ({ Changed := false, Messages := [] }, some e)
    | (stdout, _, none) =>
      let changed := goContains stdout "Updated" || goContains stdout "Homebrew updated"
      ({ Changed := changed, Messages := [] }, none)

/-- Go: brew `Upgrade` — `brew upgrade`; a line containing "==> Upgrading"
marks the result changed, and contributes its third whitespace-separated
field as a package name when the line has at least three fields. -/
def brewUpgrade (hasRunner : Bool) (r : RunOutput) : UpgradeResult × Option GoError :=
  if !hasRunner then
    ({ Changed := false, PackagesChanged := [], Messages := [] }, some .errNotSupported)
  else
    match RunWithExternalError OperationUpgradePackages "brew" r with
    | (_, _, some e) => ({ Changed := false, PackagesChanged := [], Messages := [] }, some e)
    | (stdout, _, none) =>
      let parsed := (goSplit stdout '\n').foldl
        (fun (acc : List PackageRef × Bool) line =>
          if goContains line "==> Upgrading" then
            let parts := goFields line
            let pkgs :=
              if parts.length ≥ 3 then
                acc.1 ++ [{ Name := parts.getD 2 "", Namespace := "", Channel := ""
                            Kind := "formula" }]
              else acc.1
            (pkgs, true)
          else acc)
        ([], false)
      ({ Changed := parsed.2, PackagesChanged := parsed.1, Messages := [] }, none)

/-- Go: brew `Install` — `brew install`; changed when any line mentions
"==> Installing" or "==> Downloading", in which case all requested packages
are assumed installed. -/
def brewInstall (hasRunner : Bool) (pkgs : List PackageRef) (r : RunOutput) :
    InstallResult × Option GoError :=
  if !hasRunner then
    ({ Changed := false, PackagesInstalled := [], Messages := [] }, some .errNotSupported)
  else if pkgs.isEmpty then
    ({ Changed := false, PackagesInstalled := [], Messages := [] }, none)
  else
    match RunWithExternalError OperationInstall "brew" r with
    | (_, _, some e) => ({ Changed := false, PackagesInstalled := [], Messages := [] }, some e)
    | (stdout, _, none) =>
      let changed := (goSplit stdout '\n').any
        (fun line => goContains line "==> Installing" || goContains line "==> Downloading")
      let installed := if changed then pkgs else []
      ({ Changed := changed, PackagesInstalled := installed, Messages := [] }, none)

/-- Go: brew `Uninstall` — `brew uninstall`; changed when any line mentions
"==> Uninstalling". -/
def brewUninstall (hasRunner : Bool) (pkgs : List PackageRef) (r : RunOutput) :
    UninstallResult × Option GoError :=
  if !hasRunner then
    ({ Changed := false, PackagesUninstalled := [], Messages := [] }, some .errNotSupported)
  else if pkgs.isEmpty then
    ({ Changed := false, PackagesUninstalled := [], Messages := [] }, none)
  else
    match RunWithExternalError OperationUninstall "brew" r with
    | (_, _, some e) => ({ Changed := false, PackagesUninstalled := [], Messages := [] }, some e)
    | (stdout, _, none) =>
      let changed := (goSplit stdout '\n').any
        (fun line => goContains line "==> Uninstalling")
      let uninstalled := if changed then pkgs else []
      ({ Changed := changed, PackagesUninstalled := uninstalled, Messages := [] }, none)

/-- Go: brew `Search` — delegates to the Formulae REST API, abstracted here
to its outcome; an empty query short-circuits to an empty result. -/
def brewSearch (query : String) (api : List PackageRef × Option GoError) :
    List PackageRef × Option GoError :=
  if query == "" then ([], none)
  else
    match api.2 with
    | some e => ([], some e)
    | none => (api.1, none)

/-- Go: brew `ListInstalled` — `brew list --versions`; each non-empty
trimmed line yields a package (first field) and optional version (second). -/
def brewListInstalled (hasRunner : Bool) (r : RunOutput) :
    List InstalledPackage × Option GoError :=
  if !hasRunner then ([], some .errNotSupported)
  else
    match RunWithExternalError OperationListInstalled "brew" r with
    | (_, _, some e) => ([], some e)
    | (stdout, _, none) =>
      let packages := (goSplit stdout '\n').foldl
        (fun (acc : List InstalledPackage) rawLine =>
          let line := goTrimSpace rawLine
          if line == "" then acc
          else
            let parts := goFields line
            if parts.length ≥ 1 then
              acc ++ [{ Ref := { Name := parts.getD 0 "", Namespace := ""
                                 Channel := "", Kind := "formula" }
                        Version := if parts.length ≥ 2 then parts.getD 1 "" else ""
                        Status := "" }]
            else acc)
        []
      (packages, none)

/-! ## Flatpak backend (`internal/backend/flatpak/flatpak.go`) -/

/-- Go: flatpak `Capabilities` — every operation requires a runner. -/
def flatpakCapabilities (hasRunner : Bool) : List Capability :=
  [ { Operation := OperationSearch, Supported := hasRunner, Notes := "via flatpak search CLI" },
    { Operation := OperationUpdateMetadata, Supported := hasRunner, Notes := "via flatpak update CLI" },
    { Operation := OperationUpgradePackages, Supported := hasRunner, Notes := "via flatpak update CLI" },
    { Operation := OperationInstall, Supported := hasRunner, Notes := "via flatpak install CLI" },
    { Operation := OperationUninstall, Supported := hasRunner, Notes := "via flatpak uninstall CLI" },
    { Operation := OperationListInstalled, Supported := hasRunner, Notes := "via flatpak list CLI" } ]

/-- Go: flatpak `Update` — `flatpak update --appstream`; changed when the
output mentions "Updating" or "Updated". -/
def flatpakUpdate (hasRunner : Bool) (r : RunOutput) : UpdateResult × Option GoError :=
  if !hasRunner then ({ Changed := false, Messages := [] }, some .errNotSupported)
  else
    match RunWithExternalError OperationUpdateMetadata "flatpak" r with
    | (_, _, some e) => ({ Changed := false, Messages := [] }, some e)
    | (stdout, _, none) =>
      let changed := goContains stdout "Updating" || goContains stdout "Updated"
      ({ Changed := changed, Messages := [] }, none)

/-- Go: flatpak `Upgrade` — `flatpak update -y`; a trimmed line starting
with "Updating" marks the result changed and contributes its second field as
an app ID when present. -/
def flatpakUpgrade (hasRunner : Bool) (r : RunOutput) : UpgradeResult × Option GoError :=
  if !hasRunner then
    ({ Changed := false, PackagesChanged := [], Messages := [] }, some .errNotSupported)
  else
    match RunWithExternalError OperationUpgradePackages "flatpak" r with
    | (_, _, some e) => ({ Changed := false, PackagesChanged := [], Messages := [] }, some e)
    | (stdout, _, none) =>
      let parsed := (goSplit stdout '\n').foldl
        (fun (acc : List PackageRef × Bool) rawLine =>
          let line := goTrimSpace rawLine
          if goHasPrefix line "Updating" then
            let parts := goFields line
            let pkgs :=
              if parts.length ≥ 2 then
                acc.1 ++ [{ Name := parts.getD 1 "", Namespace := "", Channel := ""
                            Kind := "app" }]
              else acc.1
            (pkgs, true)
          else acc)
        ([], false)
      ({ Changed := parsed.2, PackagesChanged := parsed.1, Messages := [] }, none)

/-- Go: flatpak `Install` — `flatpak install -y`; lines containing
"Installing" or "installed" mark the result changed and claim the first
requested package they mention; fallback reports all requested packages. -/
def flatpakInstall (hasRunner : Bool) (pkgs : List PackageRef) (r : RunOutput) :
    InstallResult × Option GoError :=
  if !hasRunner then
    ({ Changed := false, PackagesInstalled := [], Messages := [] }, some .errNotSupported)
  else if pkgs.isEmpty then
    ({ Changed := false, PackagesInstalled := [], Messages := [] }, none)
  else
    match RunWithExternalError OperationInstall "flatpak" r with
    | (_, _, some e) => ({ Changed := false, PackagesInstalled := [], Messages := [] }, some e)
    | (stdout, _, none) =>
      let parsed := (goSplit stdout '\n').foldl
        (fun (acc : List PackageRef × Bool) rawLine =>
          let line := goTrimSpace rawLine
          if goContains line "Installing" || goContains line "installed" then
            let claimed :=
              match pkgs.find? (fun pkg => goContains line pkg.Name) with
              | some pkg => acc.1 ++ [pkg]
              | none => acc.1
            (claimed, true)
          else acc)
        ([], false)
      let installed := if parsed.2 && parsed.1.isEmpty then pkgs else parsed.1
      ({ Changed := parsed.2, PackagesInstalled := installed, Messages := [] }, none)

/-- Go: flatpak `Uninstall` — `flatpak uninstall -y`, keyed on
"Uninstalling" or "uninstalled". -/
def flatpakUninstall (hasRunner : Bool) (pkgs : List PackageRef) (r : RunOutput) :
    UninstallResult × Option GoError :=
  if !hasRunner then
    ({ Changed := false, PackagesUninstalled := [], Messages := [] }, some .errNotSupported)
  else if pkgs.isEmpty then
    ({ Changed := false, PackagesUninstalled := [], Messages := [] }, none)
  else
    match RunWithExternalError OperationUninstall "flatpak" r with
    | (_, _, some e) => ({ Changed := false, PackagesUninstalled := [], Messages := [] }, some e)
    | (stdout, _, none) =>
      let parsed := (goSplit stdout '\n').foldl
        (fun (acc : List PackageRef × Bool) rawLine =>
          let line := goTrimSpace rawLine
          if goContains line "Uninstalling" || goContains line "uninstalled" then
            let claimed :=
              match pkgs.find? (fun pkg => goContains line pkg.Name) with
              | some pkg => acc.1 ++ [pkg]
              | none => acc.1
            (claimed, true)
          else acc)
        ([], false)
      let uninstalled := if parsed.2 && parsed.1.isEmpty then pkgs else parsed.1
      ({ Changed := parsed.2, PackagesUninstalled := uninstalled, Messages := [] }, none)

/-- Go: flatpak `Search` — `flatpak search`; skips the header line and takes
the third field (application ID) of each non-empty trimmed line. -/
def flatpakSearch (hasRunner : Bool) (query : String) (r : RunOutput) :
    List PackageRef × Option GoError :=
  if !hasRunner then ([], some .errNotSupported)
  else if query == "" then ([], none)
  else
    match RunWithExternalError OperationSearch "flatpak" r with
    | (_, _, some e) => ([], some e)
    | (stdout, _, none) =>
      let results := (goSplit stdout '\n').enum.foldl
        (fun (acc : List PackageRef) (iline : Nat × String) =>
          if iline.1 == 0 then acc
          else
            let line := goTrimSpace iline.2
            if line == "" then acc
            else
              let fields := goFields line
              if fields.length ≥ 3 then
                acc ++ [{ Name := fields.getD 2 "", Namespace := "", Channel := ""
                          Kind := "app" }]
              else acc)
        []
      (results, none)

/-- Go: flatpak `ListInstalled` — `flatpak list --app --columns=...`;
tab-separated columns with a whitespace fallback. -/
def flatpakListInstalled (hasRunner : Bool) (r : RunOutput) :
    List InstalledPackage × Option GoError :=
  if !hasRunner then ([], some .errNotSupported)
  else
    match RunWithExternalError OperationListInstalled "flatpak" r with
    | (_, _, some e) => ([], some e)
    | (stdout, _, none) =>
      let packages := (goSplit stdout '\n').foldl
        (fun (acc : List InstalledPackage) rawLine =>
          let line := goTrimSpace rawLine
          if line == "" then acc
          else
            let tabFields := goSplit line '\t'
            if tabFields.length ≥ 4 then
              acc ++ [{ Ref := { Name := goTrimSpace (tabFields.getD 1 "")
                                 Namespace := goTrimSpace (tabFields.getD 3 "")
                                 Channel := "", Kind := "app" }
                        Version := goTrimSpace (tabFields.getD 2 ""), Status := "" }]
            else if tabFields.length ≥ 3 then
              acc ++ [{ Ref := { Name := goTrimSpace (tabFields.getD 1 "")
                                 Namespace := "", Channel := "", Kind := "app" }
                        Version := goTrimSpace (tabFields.getD 2 ""), Status := "" }]
            else
              let fields := goFields line
              if fields.length ≥ 3 then
                acc ++ [{ Ref := { Name := fields.getD 1 ""
                                   Namespace := if fields.length ≥ 4 then fields.getD 3 "" else ""
                                   Channel := "", Kind := "app" }
                          Version := fields.getD 2 "", Status := "" }]
              else acc)
        []
      (packages, none)

/-! ## Operation dispatch (formalization glue for the capability claims) -/

/-- Dispatch an operation on the snap backend, returning the error component
of its result (arguments irrelevant to the invoked operation are ignored by
it). -/
def snapInvokeErr (hasRunner : Bool) (op : Operation) (pkgs : List PackageRef)
    (query : String) (r : RunOutput) : Option GoError :=
  if op == OperationSearch then (snapSearch hasRunner query r).2
  else if op == OperationUpdateMetadata then (snapUpdate hasRunner r).2
  else if op == OperationUpgradePackages then (snapUpgrade hasRunner r).2
  else if op == OperationInstall then (snapInstall hasRunner pkgs r).2
  else if op == OperationUninstall then (snapUninstall hasRunner pkgs r).2
  else if op == OperationListInstalled then (snapListInstalled hasRunner r).2
  else none

/-- Dispatch an operation on the brew backend (Search goes to the Formulae
API, abstracted to its outcome `api`). -/
def brewInvokeErr (hasRunner : Bool) (op : Operation) (pkgs : List PackageRef)
    (query : String) (api : List PackageRef × Option GoError) (r : RunOutput) :
    Option GoError :=
  if op == OperationSearch then (brewSearch query api).2
  else if op == OperationUpdateMetadata then (brewUpdate hasRunner r).2
  else if op == OperationUpgradePackages then (brewUpgrade hasRunner r).2
  else if op == OperationInstall then (brewInstall hasRunner pkgs r).2
  else if op == OperationUninstall then (brewUninstall hasRunner pkgs r).2
  else if op == OperationListInstalled then (brewListInstalled hasRunner r).2
  else none

/-- Dispatch an operation on the flatpak backend. -/
def flatpakInvokeErr (hasRunner : Bool) (op : Operation) (pkgs : List PackageRef)
    (query : String) (r : RunOutput) : Option GoError :=
  if op == OperationSearch then (flatpakSearch hasRunner query r).2
  else if op == OperationUpdateMetadata then (flatpakUpdate hasRunner r).2
  else if op == OperationUpgradePackages then (flatpakUpgrade hasRunner r).2
  else if op == OperationInstall then (flatpakInstall hasRunner pkgs r).2
  else if op == OperationUninstall then (flatpakUninstall hasRunner pkgs r).2
  else if op == OperationListInstalled then (flatpakListInstalled hasRunner r).2
  else none

/-- Modelled from the spec: the "scripted backend" of §8 — an operation that
emits the given warning messages through its helper and then returns the
given result together with a nil error. -/
def scriptedUpgradeOp (warnings : List String) (res : UpgradeResult) (h : Helper) :
    (UpgradeResult × Option GoError) × Helper :=
  ((res, none), warnings.foldl (fun st w => Progress.Warning st w) h)

/-- An entity currently referenced by the helper is open: its `EndedAt`
stamp is still the zero time. -/
def openInvariant (h : Helper) : Prop :=
  (∀ a, h.currentAction = some a → a.EndedAt = 0) ∧
  (∀ t, h.currentTask = some t → t.EndedAt = 0) ∧
  (∀ s, h.currentStep = some s → s.EndedAt = 0)

/-! ## Theorems -/

/-- C9: `Supports(caps, op)` returns true if and only if some entry of
`caps` names `op` and is marked supported; in particular it is false when no
entry names `op` and when every entry naming `op` is marked unsupported. -/
theorem Supports_iff_exists_supported (caps : List Capability) (op : Operation) :
    Supports caps op = true ↔ ∃ c ∈ caps, c.Operation = op ∧ c.Supported = true := by
  induction caps with
  | nil => simp [Supports]
  | cons c rest ih =>
    by_cases hc : (c.Operation == op && c.Supported) = true
    · have hops : c.Operation = op ∧ c.Supported = true := by
        simpa [Bool.and_eq_true, beq_iff_eq] using hc
      have hsup : Supports (c :: rest) op = true := by
        simp [Supports, hc]
      exact ⟨fun _ => ⟨c, List.mem_cons_self c rest, hops⟩, fun _ => hsup⟩
    · have hops : ¬(c.Operation = op ∧ c.Supported = true) := by
        simpa [Bool.and_eq_true, beq_iff_eq] using hc
      have hstep : Supports (c :: rest) op = Supports rest op := by
        simp [Supports, hc]
      rw [hstep, ih]
      constructor
      · rintro ⟨d, hd, hprop⟩
        exact ⟨d, List.mem_cons_of_mem _ hd, hprop⟩
      · rintro ⟨d, hd, hprop⟩
        rcases List.mem_cons.mp hd with rfl | hd2
        · exact absurd hprop hops
        · exact ⟨d, hd2, hprop⟩

/-- C3: each detection predicate returns false on a nil error and on an
unrelated generic error, and true both on the bare form of its kind (the
sentinel, or a plain `ExternalFailureError`) and on a decorated/wrapped
variant of its kind. -/
theorem error_predicates_taxonomy (msg op b r so se : String) :
    IsNotSupported none = false ∧
    IsNotAvailable none = false ∧
    IsExternalFailure none = false ∧
    IsNotSupported (some (.generic msg)) = false ∧
    IsNotAvailable (some (.generic msg)) = false ∧
    IsExternalFailure (some (.generic msg)) = false ∧
    IsNotSupported (some .errNotSupported) = true ∧
    IsNotSupported (some (.notSupportedError op b r)) = true ∧
    IsNotSupported (some (.wrapContext msg (.notSupportedError op b r))) = true ∧
    IsNotAvailable (some .errNotAvailable) = true ∧
    IsNotAvailable (some (.notAvailableError b r)) = true ∧
    IsNotAvailable (some (.wrapContext msg (.notAvailableError b r))) = true ∧
    IsExternalFailure (some (.externalFailure op b so se none)) = true ∧
    IsExternalFailure (some (.wrapContext msg (.externalFailure op b so se none))) = true :=
  ⟨rfl, rfl, rfl, rfl, rfl, rfl, rfl, rfl, rfl, rfl, rfl, rfl, rfl, rfl⟩

/-- C8: on failure, `RunWithExternalError` returns an `ExternalFailureError`
whose captured stdout/stderr are sanitized: passed through unchanged at up
to 500 characters, and otherwise truncated to exactly 500 characters with
the truncation marker appended. -/
theorem runWithExternalError_sanitizes (op be out errOut : String) (e : GoError) :
    (RunWithExternalError op be ⟨out, errOut, some e⟩).2.2 =
      some (.externalFailure op be (sanitize out) (sanitize errOut) (some e)) ∧
    (RunWithExternalError op be ⟨out, errOut, none⟩).2.2 = none ∧
    (∀ s : String, s.length ≤ 500 → sanitize s = s) ∧
    (∀ s : String, 500 < s.length →
        sanitize s = String.mk (s.data.take 500) ++ "... (truncated)" ∧
        (String.mk (s.data.take 500)).length = 500) := by
  refine ⟨rfl, rfl, ?_, ?_⟩
  · intro s hs
    simp [sanitize, Nat.not_lt.mpr hs]
  · intro s hs
    have hlen : 500 < s.data.length := hs
    refine ⟨by simp [sanitize, hs], ?_⟩
    show (s.data.take 500).length = 500
    rw [List.length_take]
    omega

/-- C8 witness: a 501-character output is truncated to its first 500
characters with the marker appended. -/
theorem runWithExternalError_sanitizes_witness :
    500 < (String.mk (List.replicate 501 'a')).length ∧
    sanitize (String.mk (List.replicate 501 'a')) =
      String.mk ((String.mk (List.replicate 501 'a')).data.take 500) ++ "... (truncated)" ∧
    (String.mk ((String.mk (List.replicate 501 'a')).data.take 500)).length = 500 :=
  ⟨by decide,
   (runWithExternalError_sanitizes "UpgradePackages" "brew" "" "" (.generic "exit status 1")).2.2.2
     (String.mk (List.replicate 501 'a')) (by decide)⟩

/-- C1: the `Changed` ↔ non-empty-`PackagesChanged` invariant documented on
`UpgradeResult` is violated by the upgrade parsers: brew returns
`Changed = true` with an empty list when an "==> Upgrading" line has no
package name, and snap returns `Changed = false` with a non-empty list when
a "refreshed" line is followed by "All snaps up to date". -/
theorem upgradeResult_changed_iff_violated :
    (brewUpgrade true { stdout := "==> Upgrading", stderr := "", err := none }).1.Changed = true ∧
    (brewUpgrade true { stdout := "==> Upgrading", stderr := "", err := none }).1.PackagesChanged
      = [] ∧
    (snapUpgrade true { stdout := "foo 1.2.3 refreshed\nAll snaps up to date", stderr := ""
                        err := none }).1.Changed = false ∧
    (snapUpgrade true { stdout := "foo 1.2.3 refreshed\nAll snaps up to date", stderr := ""
                        err := none }).1.PackagesChanged =
      [{ Name := "foo", Namespace := "", Channel := "", Kind := "snap" }] := by
  refine ⟨?_, ?_, ?_, ?_⟩ <;> decide

/-- C4: for each backend, every capability entry marked unsupported in the
published capability list corresponds to an operation whose invocation
returns an error satisfying `IsNotSupported`, whatever arguments and runner
output are supplied. -/
theorem unsupported_capability_yields_notSupported :
    (∀ (hasRunner : Bool) (cap : Capability), cap ∈ snapCapabilities hasRunner →
      cap.Supported = false →
      ∀ (pkgs : List PackageRef) (query : String) (r : RunOutput),
        IsNotSupported (snapInvokeErr hasRunner cap.Operation pkgs query r) = true) ∧
    (∀ (hasRunner : Bool) (cap : Capability), cap ∈ brewCapabilities hasRunner →
      cap.Supported = false →
      ∀ (pkgs : List PackageRef) (query : String)
        (api : List PackageRef × Option GoError) (r : RunOutput),
        IsNotSupported (brewInvokeErr hasRunner cap.Operation pkgs query api r) = true) ∧
    (∀ (hasRunner : Bool) (cap : Capability), cap ∈ flatpakCapabilities hasRunner →
      cap.Supported = false →
      ∀ (pkgs : List PackageRef) (query : String) (r : RunOutput),
        IsNotSupported (flatpakInvokeErr hasRunner cap.Operation pkgs query r) = true) := by
  refine ⟨?_, ?_, ?_⟩
  · intro hasRunner cap hmem hsup pkgs query r
    cases hasRunner <;> simp [snapCapabilities] at hmem <;>
      rcases hmem with rfl | rfl | rfl | rfl | rfl | rfl <;>
      first
        | rfl
        | simp at hsup
  · intro hasRunner cap hmem hsup pkgs query api r
    cases hasRunner <;> simp [brewCapabilities] at hmem <;>
      rcases hmem with rfl | rfl | rfl | rfl | rfl | rfl <;>
      first
        | rfl
        | simp at hsup
  · intro hasRunner cap hmem hsup pkgs query r
    cases hasRunner <;> simp [flatpakCapabilities] at hmem <;>
      rcases hmem with rfl | rfl | rfl | rfl | rfl | rfl <;>
      first
        | rfl
        | simp at hsup

/-- C4 witness: with no runner, snap marks Search unsupported and invoking
Search returns the NotSupported error. -/
theorem unsupported_capability_yields_notSupported_witness :
    ({ Operation := OperationSearch, Supported := false, Notes := "via snap find CLI" }
        : Capability) ∈ snapCapabilities false ∧
    IsNotSupported (snapInvokeErr false OperationSearch [] "firefox"
      { stdout := "", stderr := "", err := none }) = true :=
  ⟨by decide,
   unsupported_capability_yields_notSupported.1 false
     { Operation := OperationSearch, Supported := false, Notes := "via snap find CLI" }
     (by decide) rfl [] "firefox" { stdout := "", stderr := "", err := none }⟩

/-- Every generated identifier has positive length `n + 1`. -/
theorem freshID_length (n : Nat) : (freshID n).length = n + 1 := by
  simp [freshID, String.length]

/-- Generated identifiers are never the empty string. -/
theorem freshID_ne_empty (n : Nat) : freshID n ≠ "" := by
  intro hcontra
  have hlen := congrArg String.length hcontra
  rw [freshID_length] at hlen
  simp [String.length] at hlen

/-- Distinct draws from the identifier supply are distinct strings. -/
theorem freshID_injective {m n : Nat} (hmn : freshID m = freshID n) : m = n := by
  have hlen := congrArg String.length hmn
  rw [freshID_length, freshID_length] at hlen
  omega

/-- No helper call changes the resolved reporter. -/
theorem Progress.step_reporter (h : Helper) (op : Op) :
    (Progress.step h op).reporter = h.reporter := by
  cases op <;>
    simp only [Progress.step, Progress.BeginAction, Progress.EndAction, Progress.BeginTask,
      Progress.EndTask, Progress.BeginStep, Progress.EndStep, Progress.Info, Progress.Warning,
      Progress.Error, Progress.message] <;>
    (split <;> rfl)

/-- The identifier counter never decreases across a call. -/
theorem Progress.step_nextID_ge (h : Helper) (op : Op) :
    h.nextID ≤ (Progress.step h op).nextID := by
  cases op <;>
    simp only [Progress.step, Progress.BeginAction, Progress.EndAction, Progress.BeginTask,
      Progress.EndTask, Progress.BeginStep, Progress.EndStep, Progress.Info, Progress.Warning,
      Progress.Error, Progress.message] <;>
    (split <;> simp)

/-- With an active reporter, each `Begin*` call returns the next identifier
from the supply. -/
theorem Progress.begin_returns_freshID (h : Helper) (r : String) (hr : h.reporter = some r)
    (n : String) :
    (Progress.BeginAction h n).1 = freshID h.nextID ∧
    (Progress.BeginTask h n).1 = freshID h.nextID ∧
    (Progress.BeginStep h n).1 = freshID h.nextID := by
  refine ⟨?_, ?_, ?_⟩ <;>
    simp [Progress.BeginAction, Progress.BeginTask, Progress.BeginStep, hr]

/-- With an active reporter, each `Begin*` call consumes exactly one
identifier from the supply. -/
theorem Progress.step_nextID_begin (h : Helper) (r : String) (hr : h.reporter = some r)
    (n : String) :
    (Progress.step h (.beginAction n)).nextID = h.nextID + 1 ∧
    (Progress.step h (.beginTask n)).nextID = h.nextID + 1 ∧
    (Progress.step h (.beginStep n)).nextID = h.nextID + 1 := by
  refine ⟨?_, ?_, ?_⟩ <;>
    simp [Progress.step, Progress.BeginAction, Progress.BeginTask, Progress.BeginStep, hr]

/-- With an active reporter, every identifier a call sequence returns comes
from the supply at or beyond the helper's current counter, and the returned
identifiers are pairwise distinct. -/
theorem Progress.runIDs_spec :
    ∀ (ops : List Op) (h : Helper), h.reporter.isSome = true →
      (∀ x ∈ Progress.runIDs h ops, ∃ k, h.nextID ≤ k ∧ x = freshID k) ∧
      (Progress.runIDs h ops).Pairwise (fun x y => x ≠ y) := by
  intro ops
  induction ops with
  | nil =>
    intro h _
    exact ⟨by simp [Progress.runIDs], by simp [Progress.runIDs]⟩
  | cons op rest ih =>
    intro h hrep
    obtain ⟨r, hr⟩ := Option.isSome_iff_exists.mp hrep
    have hrep2 : (Progress.step h op).reporter.isSome = true := by
      rw [Progress.step_reporter, hr]; rfl
    have hnext := Progress.step_nextID_ge h op
    obtain ⟨ihb, ihp⟩ := ih (Progress.step h op) hrep2
    have tailBound : ∀ x ∈ Progress.runIDs (Progress.step h op) rest,
        ∃ k, h.nextID ≤ k ∧ x = freshID k := by
      intro x hx
      obtain ⟨k, hk, hfk⟩ := ihb x hx
      exact ⟨k, le_trans hnext hk, hfk⟩
    have emptyCase : ∀ hlist : Progress.runIDs h (op :: rest) =
        Progress.runIDs (Progress.step h op) rest,
        (∀ x ∈ Progress.runIDs h (op :: rest), ∃ k, h.nextID ≤ k ∧ x = freshID k) ∧
        (Progress.runIDs h (op :: rest)).Pairwise (fun x y => x ≠ y) := by
      intro hlist
      rw [hlist]
      exact ⟨tailBound, ihp⟩
    have beginCase : ∀ hid : String, ∀ hlist : Progress.runIDs h (op :: rest) =
        hid :: Progress.runIDs (Progress.step h op) rest,
        hid = freshID h.nextID →
        (Progress.step h op).nextID = h.nextID + 1 →
        (∀ x ∈ Progress.runIDs h (op :: rest), ∃ k, h.nextID ≤ k ∧ x = freshID k) ∧
        (Progress.runIDs h (op :: rest)).Pairwise (fun x y => x ≠ y) := by
      intro hid hlist hfid hcount
      rw [hlist]
      constructor
      · intro x hx
        rcases List.mem_cons.mp hx with rfl | hx2
        · exact ⟨h.nextID, le_refl _, hfid⟩
        · obtain ⟨k, hk, hfk⟩ := ihb x hx2
          exact ⟨k, by omega, hfk⟩
      · refine List.pairwise_cons.mpr ⟨?_, ihp⟩
        intro y hy
        obtain ⟨k, hk, hfk⟩ := ihb y hy
        rw [hcount] at hk
        rw [hfid, hfk]
        intro heq
        have := freshID_injective heq
        omega
    cases op with
    | beginAction n =>
      exact beginCase (Progress.BeginAction h n).1 rfl
        (Progress.begin_returns_freshID h r hr n).1
        (Progress.step_nextID_begin h r hr n).1
    | beginTask n =>
      exact beginCase (Progress.BeginTask h n).1 rfl
        (Progress.begin_returns_freshID h r hr n).2.1
        (Progress.step_nextID_begin h r hr n).2.1
    | beginStep n =>
      exact beginCase (Progress.BeginStep h n).1 rfl
        (Progress.begin_returns_freshID h r hr n).2.2
        (Progress.step_nextID_begin h r hr n).2.2
    | endAction => exact emptyCase rfl
    | endTask => exact emptyCase rfl
    | endStep => exact emptyCase rfl
    | info t => exact emptyCase rfl
    | warning t => exact emptyCase rfl
    | errorMsg t => exact emptyCase rfl

/-- C5: `NewProgressHelper` resolves the reporter as override-if-non-nil,
else default; with no resolved reporter every operation is a no-op and the
`Begin*` calls return the empty string; with an active reporter each
`Begin*` call returns a fresh non-empty identifier, and across any call
sequence the returned identifiers are pairwise distinct and non-empty. -/
theorem progressHelper_precedence_and_ids :
    (∀ d o, (NewProgressHelper d o).reporter =
        match o with
        | some r => some r
        | none => d) ∧
    (∀ (h : Helper) (name text : String) (sev : Severity), h.reporter = none →
        Progress.BeginAction h name = ("", h) ∧
        Progress.BeginTask h name = ("", h) ∧
        Progress.BeginStep h name = ("", h) ∧
        Progress.EndAction h = h ∧
        Progress.EndTask h = h ∧
        Progress.EndStep h = h ∧
        Progress.message h sev text = h) ∧
    (∀ (h : Helper) (r : String), h.reporter = some r → ∀ name,
        (Progress.BeginAction h name).1 = freshID h.nextID ∧
        (Progress.BeginTask h name).1 = freshID h.nextID ∧
        (Progress.BeginStep h name).1 = freshID h.nextID ∧
        freshID h.nextID ≠ "") ∧
    (∀ (h : Helper), h.reporter.isSome = true → ∀ ops,
        (∀ x ∈ Progress.runIDs h ops, x ≠ "") ∧
        (Progress.runIDs h ops).Pairwise (fun x y => x ≠ y)) := by
  refine ⟨?_, ?_, ?_, ?_⟩
  · intro d o
    cases o <;> rfl
  · intro h name text sev hnone
    refine ⟨?_, ?_, ?_, ?_, ?_, ?_, ?_⟩ <;>
      simp [Progress.BeginAction, Progress.BeginTask, Progress.BeginStep, Progress.EndAction,
        Progress.EndTask, Progress.EndStep, Progress.message, hnone]
  · intro h r hr name
    obtain ⟨h1, h2, h3⟩ := Progress.begin_returns_freshID h r hr name
    exact ⟨h1, h2, h3, freshID_ne_empty h.nextID⟩
  · intro h hrep ops
    obtain ⟨hb, hp⟩ := Progress.runIDs_spec ops h hrep
    refine ⟨?_, hp⟩
    intro x hx
    obtain ⟨k, _, hfk⟩ := hb x hx
    rw [hfk]
    exact freshID_ne_empty k

/-- C5 witness: with both reporters nil the helper no-ops and returns empty
identifiers; with an override reporter a concrete call sequence returns
distinct non-empty identifiers. -/
theorem progressHelper_precedence_and_ids_witness :
    (NewProgressHelper none none).reporter = none ∧
    Progress.BeginAction (NewProgressHelper none none) "Install" =
      ("", NewProgressHelper none none) ∧
    (NewProgressHelper none (some "r")).reporter.isSome = true ∧
    (Progress.runIDs (NewProgressHelper none (some "r"))
        [.beginAction "Install", .beginTask "Download", .beginStep "Fetch"]).Pairwise
      (fun x y => x ≠ y) :=
  ⟨rfl,
   (progressHelper_precedence_and_ids.2.1 (NewProgressHelper none none) "Install" "" SeverityInfo
      rfl).1,
   rfl,
   (progressHelper_precedence_and_ids.2.2.2 (NewProgressHelper none (some "r")) rfl
      [.beginAction "Install", .beginTask "Download", .beginStep "Fetch"]).2⟩

/-- C2: with an active reporter and an open action, `EndAction` re-emits the
same action (same ID, end time stamped non-zero) and clears the current
action, task and step, so that a subsequent `BeginTask` emits a task with
empty `ActionID`; and `EndTask` clears both the current task and any
still-open step. -/
theorem endAction_cascades (h : Helper) (r : String) (a : ProgressAction)
    (hr : h.reporter = some r) (ha : h.currentAction = some a) (hnow : 0 < h.now) :
    (Progress.EndAction h).events = h.events ++ [.onAction { a with EndedAt := h.now }] ∧
    ProgressAction.ID { a with EndedAt := h.now } = a.ID ∧
    ProgressAction.EndedAt { a with EndedAt := h.now } ≠ 0 ∧
    (Progress.EndAction h).currentAction = none ∧
    (Progress.EndAction h).currentTask = none ∧
    (Progress.EndAction h).currentStep = none ∧
    (∀ name, (Progress.BeginTask (Progress.EndAction h) name).2.events =
        (Progress.EndAction h).events ++
          [.onTask { ID := freshID (Progress.EndAction h).nextID, ActionID := "", Name := name,
                     StartedAt := (Progress.EndAction h).now, EndedAt := 0 }]) ∧
    (∀ (h2 : Helper) (t : ProgressTask), h2.reporter = some r → h2.currentTask = some t →
        (Progress.EndTask h2).currentTask = none ∧ (Progress.EndTask h2).currentStep = none) := by
  have hend : Progress.EndAction h =
      { h with
          now := h.now + 1
          events := h.events ++ [.onAction { a with EndedAt := h.now }]
          currentAction := none
          currentTask := none
          currentStep := none } := by
    simp [Progress.EndAction, hr, ha]
  refine ⟨by rw [hend], rfl, by simp only []; omega, by rw [hend], by rw [hend],
    by rw [hend], ?_, ?_⟩
  · intro name
    rw [hend]
    simp [Progress.BeginTask, Helper.currentActionID, hr]
  · intro h2 t hr2 ht2
    constructor <;> simp [Progress.EndTask, hr2, ht2]

/-- C2 witness: after beginning an action, a task and a step, ending the
action clears all three and a later task is orphaned. -/
theorem endAction_cascades_witness :
    (Progress.run (NewProgressHelper (some "d") none)
        [.beginAction "Install", .beginTask "Download", .beginStep "Fetch"]).reporter
      = some "d" ∧
    (Progress.run (NewProgressHelper (some "d") none)
        [.beginAction "Install", .beginTask "Download", .beginStep "Fetch"]).currentAction
      = some { ID := freshID 0, Name := "Install", StartedAt := 1, EndedAt := 0 } ∧
    0 < (Progress.run (NewProgressHelper (some "d") none)
        [.beginAction "Install", .beginTask "Download", .beginStep "Fetch"]).now ∧
    (Progress.EndAction (Progress.run (NewProgressHelper (some "d") none)
        [.beginAction "Install", .beginTask "Download", .beginStep "Fetch"])).currentTask
      = none :=
  ⟨by decide, by decide, by decide,
   (endAction_cascades
      (Progress.run (NewProgressHelper (some "d") none)
        [.beginAction "Install", .beginTask "Download", .beginStep "Fetch"])
      "d" { ID := freshID 0, Name := "Install", StartedAt := 1, EndedAt := 0 }
      (by decide) (by decide) (by decide)).2.2.2.2.1⟩

/-- Each call preserves the property that referenced entities are open. -/
theorem Progress.step_open (h : Helper) (op : Op) (hinv : openInvariant h) :
    openInvariant (Progress.step h op) := by
  obtain ⟨ha, ht, hs⟩ := hinv
  cases op <;>
    simp only [Progress.step, Progress.BeginAction, Progress.EndAction, Progress.BeginTask,
      Progress.EndTask, Progress.BeginStep, Progress.EndStep, Progress.Info, Progress.Warning,
      Progress.Error, Progress.message, openInvariant] <;>
    (split <;>
      first
        | exact ⟨ha, ht, hs⟩
        | refine ⟨?_, ?_, ?_⟩ <;> intro x hx <;>
            simp_all <;> (try subst hx) <;> simp_all)

/-- A run started from a state whose referenced entities are open keeps
them open. -/
theorem Progress.run_open :
    ∀ (ops : List Op) (h : Helper), openInvariant h → openInvariant (Progress.run h ops)
  | [], _, hinv => hinv
  | op :: rest, h, hinv =>
    Progress.run_open rest (Progress.step h op) (Progress.step_open h op hinv)

/-- C6: with an active reporter, the task event emitted by `BeginTask`
carries the ID of the currently open action (empty when none), the step
event emitted by `BeginStep` carries the ID of the currently open task, and
every emitted message carries the IDs of all currently open entities; and
in every reachable state the referenced entities are indeed open (zero
`EndedAt`). -/
theorem progress_events_correlated :
    (∀ (h : Helper) (r : String), h.reporter = some r → ∀ name,
        (Progress.BeginTask h name).2.events = h.events ++
          [.onTask { ID := freshID h.nextID, ActionID := h.currentActionID, Name := name,
                     StartedAt := h.now, EndedAt := 0 }]) ∧
    (∀ (h : Helper) (r : String), h.reporter = some r → ∀ name,
        (Progress.BeginStep h name).2.events = h.events ++
          [.onStep { ID := freshID h.nextID, TaskID := h.currentTaskID, Name := name,
                     StartedAt := h.now, EndedAt := 0 }]) ∧
    (∀ (h : Helper) (r : String), h.reporter = some r → ∀ sev text,
        (Progress.message h sev text).events = h.events ++
          [.onMessage { Severity := sev, Text := text, Timestamp := h.now,
                        ActionID := h.currentActionID, TaskID := h.currentTaskID,
                        StepID := h.currentStepID }]) ∧
    (∀ d o ops, openInvariant (Progress.run (NewProgressHelper d o) ops)) := by
  refine ⟨?_, ?_, ?_, ?_⟩
  · intro h r hr name
    simp [Progress.BeginTask, hr]
  · intro h r hr name
    simp [Progress.BeginStep, hr]
  · intro h r hr sev text
    simp [Progress.message, hr]
  · intro d o ops
    refine Progress.run_open ops (NewProgressHelper d o) ?_
    refine ⟨?_, ?_, ?_⟩ <;> intro x hx <;> simp [NewProgressHelper] at hx

/-- C6 witness: in a concrete run the task begun inside an action carries
that action's identifier. -/
theorem progress_events_correlated_witness :
    (Progress.run (NewProgressHelper none (some "r")) [.beginAction "Install"]).reporter
      = some "r" ∧
    (Progress.BeginTask (Progress.run (NewProgressHelper none (some "r")) [.beginAction "Install"])
        "Download").2.events =
      (Progress.run (NewProgressHelper none (some "r")) [.beginAction "Install"]).events ++
        [.onTask { ID := freshID 1
                   ActionID := (Progress.run (NewProgressHelper none (some "r"))
                     [.beginAction "Install"]).currentActionID
                   Name := "Download", StartedAt := 2, EndedAt := 0 }] :=
  ⟨by decide,
   progress_events_correlated.1
     (Progress.run (NewProgressHelper none (some "r")) [.beginAction "Install"]) "r"
     (by decide) "Download"⟩

/-- Emitting a message leaves everything but the clock and the event trace
unchanged. -/
theorem Progress.message_frame (h : Helper) (sev : Severity) (text : String) :
    (Progress.message h sev text).currentAction = h.currentAction ∧
    (Progress.message h sev text).currentTask = h.currentTask ∧
    (Progress.message h sev text).currentStep = h.currentStep ∧
    (Progress.message h sev text).reporter = h.reporter ∧
    (Progress.message h sev text).nextID = h.nextID := by
  simp only [Progress.message]
  split <;> exact ⟨rfl, rfl, rfl, rfl, rfl⟩

/-- A fold of `Warning` calls preserves the helper's current entities,
reporter and identifier counter. -/
theorem Progress.warn_foldl_frame :
    ∀ (warnings : List String) (h : Helper),
      ((warnings.foldl (fun st w => Progress.Warning st w) h).currentAction = h.currentAction ∧
       (warnings.foldl (fun st w => Progress.Warning st w) h).currentTask = h.currentTask ∧
       (warnings.foldl (fun st w => Progress.Warning st w) h).currentStep = h.currentStep ∧
       (warnings.foldl (fun st w => Progress.Warning st w) h).reporter = h.reporter ∧
       (warnings.foldl (fun st w => Progress.Warning st w) h).nextID = h.nextID) := by
  intro warnings
  induction warnings with
  | nil => intro h; exact ⟨rfl, rfl, rfl, rfl, rfl⟩
  | cons w rest ih =>
    intro h
    obtain ⟨i1, i2, i3, i4, i5⟩ := ih (Progress.Warning h w)
    obtain ⟨m1, m2, m3, m4, m5⟩ := Progress.message_frame h SeverityWarning w
    exact ⟨i1.trans m1, i2.trans m2, i3.trans m3, i4.trans m4, i5.trans m5⟩

/-- C7: `Info`/`Warning`/`Error` each construct one message of the matching
severity; with an active reporter exactly one message event is emitted, the
helper's current action/task/step (and reporter and counter) are unchanged,
no value is returned, and an operation that emits any number of warnings
and returns a nil error is still observed as success. -/
theorem messages_never_fail :
    (∀ h text, Progress.Info h text = Progress.message h SeverityInfo text ∧
        Progress.Warning h text = Progress.message h SeverityWarning text ∧
        Progress.Error h text = Progress.message h SeverityError text) ∧
    (∀ (h : Helper) (r : String) (sev : Severity) (text : String), h.reporter = some r →
        (Progress.message h sev text).events = h.events ++
          [.onMessage { Severity := sev, Text := text, Timestamp := h.now,
                        ActionID := h.currentActionID, TaskID := h.currentTaskID,
                        StepID := h.currentStepID }]) ∧
    (∀ (h : Helper) (sev : Severity) (text : String),
        (Progress.message h sev text).currentAction = h.currentAction ∧
        (Progress.message h sev text).currentTask = h.currentTask ∧
        (Progress.message h sev text).currentStep = h.currentStep ∧
        (Progress.message h sev text).reporter = h.reporter ∧
        (Progress.message h sev text).nextID = h.nextID) ∧
    (∀ (warnings : List String) (res : UpgradeResult) (h : Helper),
        (scriptedUpgradeOp warnings res h).1 = (res, none) ∧
        (scriptedUpgradeOp warnings res h).2.currentAction = h.currentAction ∧
        (scriptedUpgradeOp warnings res h).2.currentTask = h.currentTask ∧
        (scriptedUpgradeOp warnings res h).2.currentStep = h.currentStep) := by
  refine ⟨?_, ?_, ?_, ?_⟩
  · intro h text
    exact ⟨rfl, rfl, rfl⟩
  · intro h r sev text hr
    simp [Progress.message, hr]
  · intro h sev text
    exact Progress.message_frame h sev text
  · intro warnings res h
    obtain ⟨f1, f2, f3, _, _⟩ := Progress.warn_foldl_frame warnings h
    exact ⟨rfl, f1, f2, f3⟩

/-- C7 witness: a scripted operation that emits two warnings still returns
a nil error, and a concrete message emission leaves the current action in
place. -/
theorem messages_never_fail_witness :
    (scriptedUpgradeOp ["slow mirror", "retrying"]
        { Changed := false, PackagesChanged := [], Messages := [] }
        (NewProgressHelper none (some "r"))).1 =
      ({ Changed := false, PackagesChanged := [], Messages := [] }, none) ∧
    (Progress.message (Progress.run (NewProgressHelper none (some "r"))
        [.beginAction "Install"]) SeverityWarning "slow mirror").currentAction =
      (Progress.run (NewProgressHelper none (some "r")) [.beginAction "Install"]).currentAction :=
  ⟨(messages_never_fail.2.2.2 ["slow mirror", "retrying"]
      { Changed := false, PackagesChanged := [], Messages := [] }
      (NewProgressHelper none (some "r"))).1,
   (messages_never_fail.2.2.1 (Progress.run (NewProgressHelper none (some "r"))
      [.beginAction "Install"]) SeverityWarning "slow mirror").1⟩

/-- On a call whose children are already closed, the `internal/types` helper
and the `progress` helper transform the state identically. -/
theorem nestedStep_eq (h : Helper) (op : Op)
    (hop : (match op with
            | Op.endAction => h.currentTask.isNone && h.currentStep.isNone
            | Op.endTask => h.currentStep.isNone
            | _ => true) = true) :
    TypesPkg.step h op = Progress.step h op := by
  obtain ⟨rep, ca, ct, cs, ni, nw, ev⟩ := h
  cases op with
  | beginAction n => rfl
  | endAction =>
    rw [Bool.and_eq_true] at hop
    have hct : ct = none := by
      simpa [Option.isNone_iff_eq_none] using hop.1
    have hcs : cs = none := by
      simpa [Option.isNone_iff_eq_none] using hop.2
    subst hct hcs
    cases rep <;> cases ca <;> rfl
  | beginTask n =>
    cases rep <;> cases ca <;>
      simp [TypesPkg.step, Progress.step, TypesPkg.BeginTask, Progress.BeginTask,
        Helper.currentActionID]
  | endTask =>
    have hcs : cs = none := by
      simpa [Option.isNone_iff_eq_none] using hop
    subst hcs
    cases rep <;> cases ct <;> rfl
  | beginStep n =>
    cases rep <;> cases ct <;>
      simp [TypesPkg.step, Progress.step, TypesPkg.BeginStep, Progress.BeginStep,
        Helper.currentTaskID]
  | endStep => rfl
  | info t => rfl
  | warning t => rfl
  | errorMsg t => rfl

/-- Auxiliary cons step for the equivalence of the two helpers on properly
nested sequences. -/
theorem nested_run_cons (h : Helper) (op : Op) (rest : List Op)
    (ih : ∀ h2 : Helper, properlyNested h2 rest = true →
      TypesPkg.run h2 rest = Progress.run h2 rest)
    (hcond : (match op with
      | Op.endAction => h.currentTask.isNone && h.currentStep.isNone
      | Op.endTask => h.currentStep.isNone
      | _ => true) = true)
    (htail : properlyNested (Progress.step h op) rest = true) :
    TypesPkg.run h (op :: rest) = Progress.run h (op :: rest) := by
  have hstep := nestedStep_eq h op hcond
  show TypesPkg.run (TypesPkg.step h op) rest = Progress.run (Progress.step h op) rest
  rw [hstep]
  exact ih (Progress.step h op) htail

/-- On a properly nested call sequence the two helpers produce identical
final states (in particular identical event traces). -/
theorem nested_run_eq :
    ∀ (ops : List Op) (h : Helper), properlyNested h ops = true →
      TypesPkg.run h ops = Progress.run h ops := by
  intro ops
  induction ops with
  | nil => intro h _; rfl
  | cons op rest ih =>
    intro h hnest
    have go := nested_run_cons h op rest ih
    cases op with
    | endAction =>
      have hnest2 : ((h.currentTask.isNone && h.currentStep.isNone) &&
          properlyNested (Progress.step h Op.endAction) rest) = true := hnest
      rw [Bool.and_eq_true] at hnest2
      exact go hnest2.1 hnest2.2
    | endTask =>
      have hnest2 : (h.currentStep.isNone &&
          properlyNested (Progress.step h Op.endTask) rest) = true := hnest
      rw [Bool.and_eq_true] at hnest2
      exact go hnest2.1 hnest2.2
    | beginAction n =>
      have hnest2 : (true &&
          properlyNested (Progress.step h (Op.beginAction n)) rest) = true := hnest
      rw [Bool.true_and] at hnest2
      exact go rfl hnest2
    | beginTask n =>
      have hnest2 : (true &&
          properlyNested (Progress.step h (Op.beginTask n)) rest) = true := hnest
      rw [Bool.true_and] at hnest2
      exact go rfl hnest2
    | beginStep n =>
      have hnest2 : (true &&
          properlyNested (Progress.step h (Op.beginStep n)) rest) = true := hnest
      rw [Bool.true_and] at hnest2
      exact go rfl hnest2
    | endStep =>
      have hnest2 : (true &&
          properlyNested (Progress.step h Op.endStep) rest) = true := hnest
      rw [Bool.true_and] at hnest2
      exact go rfl hnest2
    | info t =>
      have hnest2 : (true &&
          properlyNested (Progress.step h (Op.info t)) rest) = true := hnest
      rw [Bool.true_and] at hnest2
      exact go rfl hnest2
    | warning t =>
      have hnest2 : (true &&
          properlyNested (Progress.step h (Op.warning t)) rest) = true := hnest
      rw [Bool.true_and] at hnest2
      exact go rfl hnest2
    | errorMsg t =>
      have hnest2 : (true &&
          properlyNested (Progress.step h (Op.errorMsg t)) rest) = true := hnest
      rw [Bool.true_and] at hnest2
      exact go rfl hnest2

/-- C10 counterexample: the two `ProgressHelper` implementations diverge on
the sequence BeginAction; BeginTask; EndAction; EndTask — the `progress`
version cascades the clear on `EndAction` so the trailing `EndTask` is a
no-op (3 events), while the `internal/types` copy leaves the task open and
emits a fourth event. -/
theorem helperCopies_counterexample :
    (Progress.run (NewProgressHelper none (some "r"))
        [.beginAction "A", .beginTask "T", .endAction, .endTask]).events ≠
      (TypesPkg.run (NewProgressHelper none (some "r"))
        [.beginAction "A", .beginTask "T", .endAction, .endTask]).events := by
  decide

/-- C10 (amended): the two `ProgressHelper` implementations are behaviorally
equivalent on every properly nested call sequence — one in which `EndTask`
is never called with a step still open and `EndAction` is never called with
a task or step still open; on such sequences they emit identical event
traces and end in identical states. -/
theorem helperCopies_equivalent_on_nested (ops : List Op) (h : Helper)
    (hnest : properlyNested h ops = true) :
    (TypesPkg.run h ops).events = (Progress.run h ops).events ∧
    TypesPkg.run h ops = Progress.run h ops :=
  ⟨by rw [nested_run_eq ops h hnest], nested_run_eq ops h hnest⟩

/-- C10 witness: a fully nested concrete sequence is properly nested and
both implementations produce the same trace on it. -/
theorem helperCopies_equivalent_on_nested_witness :
    properlyNested (NewProgressHelper none (some "r"))
      [.beginAction "A", .beginTask "T", .beginStep "S", .endStep, .endTask, .endAction]
      = true ∧
    (TypesPkg.run (NewProgressHelper none (some "r"))
        [.beginAction "A", .beginTask "T", .beginStep "S", .endStep, .endTask, .endAction]).events
      = (Progress.run (NewProgressHelper none (some "r"))
        [.beginAction "A", .beginTask "T", .beginStep "S", .endStep, .endTask, .endAction]).events :=
  ⟨by decide,
   (helperCopies_equivalent_on_nested
      [.beginAction "A", .beginTask "T", .beginStep "S", .endStep, .endTask, .endAction]
      (NewProgressHelper none (some "r")) (by decide)).1⟩
